import Mathlib

/-!
# Verification of the gmail-mcp batch mutation engine and message builder

Shallow embedding of the two core components of the repository:

* `EmailService.processBatches` (src/services/gmail-api.client.ts, lines 442-470):
  a chunking loop with bulk-then-per-item fallback, modelled as a step function
  on an explicit loop state plus a fuel-bounded runner (the JS `for` loop with
  `i += batchSize` does not terminate for non-positive `batchSize`, so the
  runner takes explicit fuel; the JS `Array.prototype.slice` index normalization
  is modelled exactly).

* `EmailBuilder` (src/builders/email.builder.ts): the four document assembly
  functions and the RFC 2047 header encoder, together with the e-mail address
  validation helpers of src/utils/validation.util.ts.

Machine numbers appearing here (loop index, batch size) are modelled as `Int`
(JS numbers are used only within exact-integer range in this code).  Throwing
code is modelled with `Except String`.
-/

/-- A caller-supplied batch action: `processFn` in the source.  A call either
succeeds (`.ok ()`) or throws with a message (`.error e`). -/
abbrev BatchApply := List String → Except String Unit

/-- Result type of the batch engine, `BatchResult` of src/types/email.types.ts:
`{ successes: number; failures: Array<{item, error}> }`.  A failure is the pair
(item, error message). -/
structure BatchResult where
  successes : Nat
  failures : List (String × String)
deriving DecidableEq, Repr

/-- JavaScript `Array.prototype.slice(start, end)` on a list: negative indices
count from the end, indices are clamped to `[0, length]`, and the extracted
range is `[start', end')`. -/
def jsSlice (l : List α) (start stop : Int) : List α :=
  let len : Int := l.length
  let s := if start < 0 then max (len + start) 0 else min start len
  let e := if stop < 0 then max (len + stop) 0 else min stop len
  (l.take e.toNat).drop s.toNat

/-- The mutable state of the `processBatches` loop: the loop index `i`, the
`successes` and `failures` accumulator arrays, and (as an added observation
used to state the no-fallback property) the list `calls` of arguments passed
to `processFn` so far. -/
structure BatchState where
  i : Int
  successes : List String
  failures : List (String × String)
  calls : List (List String)
deriving DecidableEq, Repr

/-- Initial loop state: `i = 0`, empty accumulators. -/
def initState : BatchState := ⟨0, [], [], []⟩

/-- The per-item fallback loop of `processBatches` (lines 456-466): for each
item of a failed chunk, call `processFn([item])`; on success push the item to
`successes`, on failure push `(item, message)` to `failures`.  Returns the
successes, the failures, and the call log of this loop, in source order. -/
def fallback (apply : BatchApply) : List String → List String × List (String × String) × List (List String)
  | [] => ([], [], [])
  | item :: rest =>
    let r := fallback apply rest
    match apply [item] with
    | .ok _ => (item :: r.1, r.2.1, [item] :: r.2.2)
    | .error e => (r.1, (item, e) :: r.2.1, [item] :: r.2.2)

/-- One iteration of the `processBatches` loop body (lines 450-467): take the
chunk `items.slice(i, i + batchSize)`, call `processFn(batch)`; if it succeeds
record every chunk item as a success, otherwise run the per-item fallback.
The `for` update `i += batchSize` happens in both branches. -/
def processBatchesStep (apply : BatchApply) (items : List String) (batchSize : Int)
    (st : BatchState) : BatchState :=
  let batch := jsSlice items st.i (st.i + batchSize)
  match apply batch with
  | .ok _ =>
    ⟨st.i + batchSize, st.successes ++ batch, st.failures, st.calls ++ [batch]⟩
  | .error _ =>
    let r := fallback apply batch
    ⟨st.i + batchSize, st.successes ++ r.1, st.failures ++ r.2.1, st.calls ++ (batch :: r.2.2)⟩

/-- The `for (let i = 0; i < items.length; i += batchSize)` loop, run with
explicit fuel: `none` means the fuel was exhausted before the loop condition
became false (the loop would still be running). -/
def processBatchesRun (apply : BatchApply) (items : List String) (batchSize : Int) :
    Nat → BatchState → Option BatchState
  | fuel, st =>
    if st.i < (items.length : Int) then
      match fuel with
      | 0 => none
      | n + 1 => processBatchesRun apply items batchSize n (processBatchesStep apply items batchSize st)
    else
      some st

/-- `EmailService.processBatches`: run the loop from the initial state and
package `{ successes: successes.length, failures }`.  For `batchSize ≥ 1` the
loop performs at most `items.length` iterations, so `items.length` fuel is
exact; the result is `none` precisely when the JS loop would not terminate. -/
def processBatches (apply : BatchApply) (items : List String) (batchSize : Int) :
    Option BatchResult :=
  (processBatchesRun apply items batchSize items.length initState).map
    (fun st => ⟨st.successes.length, st.failures⟩)

/-- The multiset of items accounted for in a loop state: the successes list
together with the items of the failures list. -/
def acct (st : BatchState) : Multiset String :=
  (st.successes : Multiset String) + ((st.failures.map Prod.fst : List String) : Multiset String)

/-- An action that always succeeds. -/
def applyAllOk : BatchApply := fun _ => .ok ()

/-- The action of the spec's worked example: throws exactly on the argument
`["c","d"]`, succeeds on every other argument. -/
def applyC2 : BatchApply := fun l => if l = ["c", "d"] then .error "boom" else .ok ()

/-- An action that throws exactly on single-item arguments: bulk calls
succeed, individual calls fail. -/
def applyMask : BatchApply := fun l => if l.length = 1 then .error "single item failure" else .ok ()

example : processBatches applyC2 ["a", "b", "c", "d", "e"] 2 = some ⟨5, []⟩ := by decide

example : processBatches applyAllOk ["a", "b", "c"] 2 = some ⟨3, []⟩ := by decide

example : processBatches applyMask ["a", "b"] 2 = some ⟨2, []⟩ := by decide

lemma processBatchesStep_i (apply : BatchApply) (items : List String) (c : Int) (st : BatchState) :
    (processBatchesStep apply items c st).i = st.i + c := by
  unfold processBatchesStep
  dsimp only
  split <;> rfl

lemma jsSlice_chunk (l : List String) (i c : Int) (h0 : 0 ≤ i) (hc : 1 ≤ c)
    (hil : i < (l.length : Int)) :
    jsSlice l i (i + c) ++ l.drop (i + c).toNat = l.drop i.toNat ∧ jsSlice l i (i + c) ≠ [] := by
  unfold jsSlice
  dsimp only
  rw [if_neg (by omega : ¬ i < 0), if_neg (by omega : ¬ i + c < 0),
    (by omega : min i (l.length : Int) = i)]
  set e : Int := min (i + c) (l.length : Int) with he
  have he1 : i + 1 ≤ e := by omega
  rw [List.drop_take e.toNat i.toNat l]
  set k : Nat := e.toNat - i.toNat with hk
  have hk1 : 1 ≤ k := by omega
  constructor
  · have hdropeq : l.drop (i + c).toNat = (l.drop i.toNat).drop k := by
      rcases le_or_lt (i + c) (l.length : Int) with h | h
      · rw [List.drop_drop, (by omega : (i + c).toNat = i.toNat + k)]
      · rw [List.drop_eq_nil_of_le (by omega), List.drop_eq_nil_of_le (by simp; omega)]
    rw [hdropeq, List.take_append_drop]
  · apply List.ne_nil_of_length_pos
    rw [List.length_take, List.length_drop]
    omega

lemma fallback_acct (apply : BatchApply) (batch : List String) :
    ((fallback apply batch).1 : Multiset String)
      + (((fallback apply batch).2.1.map Prod.fst : List String) : Multiset String)
      = (batch : Multiset String) := by
  induction batch with
  | nil => simp [fallback]
  | cons a rest ih =>
    cases ha : apply [a] with
    | ok v =>
      simp only [fallback, ha]
      rw [← Multiset.cons_coe, ← Multiset.cons_coe, Multiset.cons_add, ih]
    | error e =>
      simp only [fallback, ha, List.map_cons]
      rw [← Multiset.cons_coe, ← Multiset.cons_coe, Multiset.add_cons, ih]

lemma acct_step (apply : BatchApply) (items : List String) (c : Int) (st : BatchState) :
    acct (processBatchesStep apply items c st)
      = acct st + ((jsSlice items st.i (st.i + c) : List String) : Multiset String) := by
  unfold processBatchesStep
  dsimp only
  cases ha : apply (jsSlice items st.i (st.i + c)) with
  | ok v =>
    simp only [ha, acct, ← Multiset.coe_add]
    abel
  | error e =>
    simp only [ha, acct, List.map_append, ← Multiset.coe_add]
    rw [← fallback_acct apply (jsSlice items st.i (st.i + c))]
    abel

lemma processBatchesRun_complete (apply : BatchApply) (items : List String) (c : Int)
    (hc : 1 ≤ c) :
    ∀ (fuel : Nat) (st : BatchState), 0 ≤ st.i →
      (items.length : Int) ≤ st.i + fuel →
      ∃ st', processBatchesRun apply items c fuel st = some st' ∧
        acct st' = acct st + ((items.drop st.i.toNat : List String) : Multiset String) := by
  intro fuel
  induction fuel with
  | zero =>
    intro st h0 hlen
    refine ⟨st, ?_, ?_⟩
    · unfold processBatchesRun
      rw [if_neg (by omega)]
    · rw [List.drop_eq_nil_of_le (by omega)]
      simp
  | succ n ih =>
    intro st h0 hlen
    by_cases hcond : st.i < (items.length : Int)
    · obtain ⟨happ, -⟩ := jsSlice_chunk items st.i c h0 hc hcond
      obtain ⟨st', hrun, hacct⟩ := ih (processBatchesStep apply items c st)
        (by rw [processBatchesStep_i]; omega)
        (by rw [processBatchesStep_i]; omega)
      refine ⟨st', ?_, ?_⟩
      · unfold processBatchesRun
        rw [if_pos hcond]
        exact hrun
      · rw [hacct, acct_step, processBatchesStep_i, ← happ]
        rw [← Multiset.coe_add]
        rw [add_assoc]
    · refine ⟨st, ?_, ?_⟩
      · unfold processBatchesRun
        rw [if_neg hcond]
      · rw [List.drop_eq_nil_of_le (by omega)]
        simp

lemma processBatchesRun_diverges (apply : BatchApply) (items : List String) (c : Int)
    (hc : c ≤ 0) :
    ∀ (fuel : Nat) (st : BatchState), st.i < (items.length : Int) →
      processBatchesRun apply items c fuel st = none := by
  intro fuel
  induction fuel with
  | zero =>
    intro st h
    unfold processBatchesRun
    rw [if_pos h]
  | succ n ih =>
    intro st h
    unfold processBatchesRun
    rw [if_pos h]
    exact ih _ (by rw [processBatchesStep_i]; omega)

/-- C1: for every item list, every chunk size `c ≥ 1`, and every apply
function (each call of which either succeeds or throws), `processBatches`
terminates with a `BatchResult` in which `successes + |failures|` equals the
number of input items, and the success list together with the items of the
failures list is exactly the input item multiset: each input item is
accounted for exactly once across the success count and the failures list. -/
theorem processBatches_accounts_every_item (apply : BatchApply) (items : List String)
    (c : Int) (hc : 1 ≤ c) :
    ∃ st', processBatchesRun apply items c items.length initState = some st' ∧
      processBatches apply items c = some ⟨st'.successes.length, st'.failures⟩ ∧
      st'.successes.length + st'.failures.length = items.length ∧
      acct st' = (items : Multiset String) := by
  obtain ⟨st', hrun, hacct⟩ := processBatchesRun_complete apply items c hc items.length
    initState (by simp [initState]) (by simp [initState])
  have hacct' : acct st' = (items : Multiset String) := by
    rw [hacct]
    simp [acct, initState]
  refine ⟨st', hrun, ?_, ?_, hacct'⟩
  · unfold processBatches
    rw [hrun]
    rfl
  · have hcard := congrArg Multiset.card hacct'
    simpa [acct, Multiset.card_add] using hcard

/-- Witness for C1 at a concrete input: three items, chunk size two, an
always-succeeding action. -/
theorem processBatches_accounts_every_item_witness :
    (1 : Int) ≤ 2 ∧
    ∃ st', processBatchesRun applyAllOk ["a", "b", "c"] 2 3 initState = some st' ∧
      processBatches applyAllOk ["a", "b", "c"] 2 = some ⟨st'.successes.length, st'.failures⟩ ∧
      st'.successes.length + st'.failures.length = 3 ∧
      acct st' = (["a", "b", "c"] : Multiset String) :=
  ⟨by norm_num, processBatches_accounts_every_item applyAllOk ["a", "b", "c"] 2 (by norm_num)⟩

/-- C2 counterexample: for `items = ["a","b","c","d","e"]`, `chunkSize = 2`
and an apply that throws exactly on the argument `["c","d"]`, the code
returns `successCount = 5` with no failures (the per-item fallback calls
`apply(["c"])` and `apply(["d"])` succeed), not `successCount = 3` with
failures for c and d as claimed. -/
theorem processBatches_example_counterexample :
    processBatches applyC2 ["a", "b", "c", "d", "e"] 2 = some ⟨5, []⟩ ∧
    (processBatches applyC2 ["a", "b", "c", "d", "e"] 2).map BatchResult.successes ≠ some 3 := by
  decide

/-- C2 amended: on that input the second chunk's bulk call fails, the run
falls back to `apply(["c"])` and `apply(["d"])` — both of which succeed, since
apply throws only on `["c","d"]` — so all five items are recorded as
successes: the result is `successCount = 5` with an empty failures list, and
the call log is the two-item chunks followed by the two singleton retries. -/
theorem processBatches_example_amended :
    processBatchesRun applyC2 ["a", "b", "c", "d", "e"] 2 5 initState =
      some ⟨6, ["a", "b", "c", "d", "e"], [], [["a", "b"], ["c", "d"], ["c"], ["d"], ["e"]]⟩ ∧
    processBatches applyC2 ["a", "b", "c", "d", "e"] 2 = some ⟨5, []⟩ := by
  decide

/-- C3: whenever the chunk-level call succeeds, the loop iteration records
every item of the chunk as a success, leaves the failures unchanged, and
performs no per-item fallback call (the call log grows by the single
chunk-level argument only); concretely, with an action that fails on every
single-item argument but succeeds on the pair, processing `["a","b"]` with
chunk size 2 reports both items as successes and never invokes the fallback,
masking the individual failures. -/
theorem chunk_success_masks_individual_failures (apply : BatchApply) (items : List String)
    (c : Int) (st : BatchState)
    (h : apply (jsSlice items st.i (st.i + c)) = .ok ()) :
    processBatchesStep apply items c st =
      ⟨st.i + c, st.successes ++ jsSlice items st.i (st.i + c), st.failures,
        st.calls ++ [jsSlice items st.i (st.i + c)]⟩ ∧
    processBatchesRun applyMask ["a", "b"] 2 2 initState =
      some ⟨2, ["a", "b"], [], [["a", "b"]]⟩ ∧
    applyMask ["a"] = .error "single item failure" ∧
    processBatches applyMask ["a", "b"] 2 = some ⟨2, []⟩ := by
  refine ⟨?_, by decide, rfl, by decide⟩
  unfold processBatchesStep
  dsimp only
  rw [h]

/-- Witness for C3 at a concrete state: the always-succeeding action on the
chunk `["x","y"]` from the initial state. -/
theorem chunk_success_masks_individual_failures_witness :
    applyAllOk (jsSlice ["x", "y"] 0 (0 + 2)) = .ok () ∧
    (processBatchesStep applyAllOk ["x", "y"] 2 initState =
      ⟨0 + 2, [] ++ jsSlice ["x", "y"] 0 (0 + 2), [],
        [] ++ [jsSlice ["x", "y"] 0 (0 + 2)]⟩ ∧
    processBatchesRun applyMask ["a", "b"] 2 2 initState =
      some ⟨2, ["a", "b"], [], [["a", "b"]]⟩ ∧
    applyMask ["a"] = .error "single item failure" ∧
    processBatches applyMask ["a", "b"] 2 = some ⟨2, []⟩) :=
  ⟨rfl, chunk_success_masks_individual_failures applyAllOk ["x", "y"] 2 initState rfl⟩

/-- C10: for every item list and every `batchSize ≥ 1` the loop of
`processBatches` terminates within `items.length` iterations; for
`batchSize ≤ 0` and a non-empty item list it never terminates (no amount of
fuel completes the loop), so the positive-batch-size hypothesis is required. -/
theorem processBatches_terminates_iff_positive_batchSize :
    (∀ (apply : BatchApply) (items : List String) (c : Int), 1 ≤ c →
      ∃ st', processBatchesRun apply items c items.length initState = some st') ∧
    (∀ (apply : BatchApply) (items : List String) (c : Int), c ≤ 0 → items ≠ [] →
      ∀ fuel : Nat, processBatchesRun apply items c fuel initState = none) := by
  constructor
  · intro apply items c hc
    obtain ⟨st', hrun, -⟩ := processBatchesRun_complete apply items c hc items.length
      initState (by simp [initState]) (by simp [initState])
    exact ⟨st', hrun⟩
  · intro apply items c hc hne fuel
    apply processBatchesRun_diverges apply items c hc
    simp only [initState]
    exact_mod_cast List.length_pos.mpr hne

/-- Witness for C10: termination at batch size 1 on a singleton list, and
divergence at batch size 0 for any particular fuel (7 here). -/
theorem processBatches_terminates_iff_positive_batchSize_witness :
    ((1 : Int) ≤ 1 ∧ ∃ st', processBatchesRun applyAllOk ["a"] 1 1 initState = some st') ∧
    ((0 : Int) ≤ 0 ∧ (["a"] : List String) ≠ [] ∧
      processBatchesRun applyAllOk ["a"] 0 7 initState = none) :=
  ⟨⟨le_refl 1, processBatches_terminates_iff_positive_batchSize.1 applyAllOk ["a"] 1 (le_refl 1)⟩,
   ⟨le_refl 0, by decide,
    processBatches_terminates_iff_positive_batchSize.2 applyAllOk ["a"] 0 (le_refl 0) (by decide) 7⟩⟩

/-! ## Message builder: header word-encoding (RFC 2047), src/builders/email.builder.ts lines 20-27

`encodeHeader` tests `/[^\x00-\x7F]/` and, when a non-ASCII character is
present, emits `=?UTF-8?B?` + base64(UTF-8 bytes) + `?=` (Node's
`Buffer.from(text).toString('base64')`).  Bytes are modelled as `Nat < 256`.
-/

/-- UTF-8 encoding of one Unicode scalar value (what `Buffer.from` does to
each character of the JS string). -/
def utf8EncodeChar (n : Nat) : List Nat :=
  if n < 0x80 then [n]
  else if n < 0x800 then [0xC0 + n / 0x40, 0x80 + n % 0x40]
  else if n < 0x10000 then [0xE0 + n / 0x1000, 0x80 + n / 0x40 % 0x40, 0x80 + n % 0x40]
  else [0xF0 + n / 0x40000, 0x80 + n / 0x1000 % 0x40, 0x80 + n / 0x40 % 0x40, 0x80 + n % 0x40]

/-- UTF-8 encoding of a string, as its byte sequence. -/
def utf8Encode (s : String) : List Nat :=
  s.data.flatMap (fun c => utf8EncodeChar c.toNat)

/-- The standard base64 alphabet: value `n < 64` to its digit character. -/
def b64Char (n : Nat) : Char :=
  if n < 26 then Char.ofNat (65 + n)
  else if n < 52 then Char.ofNat (97 + (n - 26))
  else if n < 62 then Char.ofNat (48 + (n - 52))
  else if n = 62 then '+'
  else '/'

/-- Base64 encoding of a byte sequence, three bytes to four digits, padded
with `=` exactly as Node's `Buffer.toString('base64')`. -/
def b64Encode : List Nat → List Char
  | [] => []
  | [a] => [b64Char (a / 4), b64Char (a % 4 * 16), '=', '=']
  | [a, b] => [b64Char (a / 4), b64Char (a % 4 * 16 + b / 16), b64Char (b % 16 * 4), '=']
  | a :: b :: c :: rest =>
    b64Char (a / 4) :: b64Char (a % 4 * 16 + b / 16) :: b64Char (b % 16 * 4 + c / 64)
      :: b64Char (c % 64) :: b64Encode rest

/-- The test `/[^\x00-\x7F]/.test(text)`: does the string contain a character
outside the ASCII range? -/
def hasNonAscii (s : String) : Bool :=
  s.data.any (fun c => 127 < c.toNat)

/-- `EmailBuilder.encodeHeader`: encode a header value as an RFC 2047 word if
it contains non-ASCII characters, otherwise return it unchanged. -/
def encodeHeader (text : String) : String :=
  if hasNonAscii text then
    "=?UTF-8?B?" ++ String.mk (b64Encode (utf8Encode text)) ++ "?="
  else
    text

/-! ## Address validation, src/utils/validation.util.ts -/

/-- The whitespace class `\s` of JavaScript regular expressions. -/
def jsWhitespace (c : Char) : Bool :=
  c ∈ ['\t', '\n', '\x0b', '\x0c', '\r', ' ', ' ', ' ',
    ' ', ' ', ' ', ' ', ' ', ' ', ' ', ' ',
    ' ', ' ', ' ', ' ', ' ', ' ', ' ', '　', '﻿']

/-- `validateEmail`: the test `/^[^\s@]+@[^\s@]+\.[^\s@]+$/.test(email)`.
The regex matches exactly when the string splits at its unique `@` into a
non-empty whitespace-free local part and a remainder that is whitespace-free
and contains a `.` which is neither its first nor its last character (the
two `[^\s@]+` groups around `\.` must be non-empty; the character classes
exclude `@`, so the string must contain exactly one `@`). -/
def validateEmail (email : String) : Bool :=
  match email.data.splitOn '@' with
  | [localPart, rest] =>
    !localPart.isEmpty && localPart.all (fun c => !jsWhitespace c) &&
    !rest.isEmpty && rest.all (fun c => !jsWhitespace c) &&
    ((rest.drop 1).dropLast.contains '.')
  | _ => false

/-- `validateEmailArray`: throw `Invalid email address: <e>` at the first
invalid address, succeed when all pass. -/
def validateEmailArray : List String → Except String Unit
  | [] => .ok ()
  | e :: rest =>
    if validateEmail e then validateEmailArray rest
    else .error ("Invalid email address: " ++ e)

/-! ## The builder input, `SendEmailParams` of src/types/email.types.ts -/

/-- `mimeType?: 'text/plain' | 'text/html' | 'multipart/alternative'`. -/
inductive MimeType where
  | textPlain
  | textHtml
  | multipartAlternative
deriving DecidableEq, Repr

/-- `SendEmailParams` (the `threadId` field is not consulted by the builder
and is omitted). -/
structure SendEmailParams where
  «to» : List String
  subject : String
  body : String
  htmlBody : Option String := none
  mimeType : Option MimeType := none
  cc : Option (List String) := none
  bcc : Option (List String) := none
  inReplyTo : Option String := none
  attachments : Option (List String) := none
deriving DecidableEq, Repr

/-- JS truthiness of an optional string: `undefined` and `""` are falsy. -/
def jsTruthyStr : Option String → Bool
  | some s => !(s = "")
  | none => false

/-- `params.htmlBody || params.body`: the HTML body if present and non-empty,
otherwise the plain body. -/
def htmlOrBody (params : SendEmailParams) : String :=
  match params.htmlBody with
  | some s => if s = "" then params.body else s
  | none => params.body

/-- The shared validation prologue of all four build functions:
`validateEmailArray(params.«to»)`, then cc and bcc when present (an array is
always truthy in JS, even when empty). -/
def validateRecipients (params : SendEmailParams) : Except String Unit :=
  match validateEmailArray params.«to» with
  | .error e => .error e
  | .ok _ =>
    match (match params.cc with | some cc => validateEmailArray cc | none => .ok ()) with
    | .error e => .error e
    | .ok _ =>
      match params.bcc with
      | some bcc => validateEmailArray bcc
      | none => .ok ()

/-! ## The four assembly functions

Each document is an array of string segments, filtered by
`.filter(Boolean)` — which removes exactly the empty strings — and joined
with `"\r\n"`.  The conditional entries are `''` when their field is absent
(or, for `inReplyTo`, empty). -/

/-- The segment array of `buildPlainTextEmail` (lines 40-53), before
`.filter(Boolean)`. -/
def plainTextParts (params : SendEmailParams) : List String :=
  ["From: me",
   "To: " ++ String.intercalate ", " params.«to»,
   match params.cc with
   | some cc => "Cc: " ++ String.intercalate ", " cc
   | none => "",
   match params.bcc with
   | some bcc => "Bcc: " ++ String.intercalate ", " bcc
   | none => "",
   "Subject: " ++ encodeHeader params.subject,
   if jsTruthyStr params.inReplyTo then "In-Reply-To: " ++ params.inReplyTo.getD "" else "",
   if jsTruthyStr params.inReplyTo then "References: " ++ params.inReplyTo.getD "" else "",
   "MIME-Version: 1.0",
   "Content-Type: text/plain; charset=UTF-8",
   "Content-Transfer-Encoding: 7bit",
   "",
   params.body]

/-- `EmailBuilder.buildPlainTextEmail`: validate, then join the filtered
segments with CRLF. -/
def buildPlainTextEmail (params : SendEmailParams) : Except String String :=
  match validateRecipients params with
  | .error e => .error e
  | .ok _ => .ok (String.intercalate "\r\n" ((plainTextParts params).filter (fun s => !(s = ""))))

/-- The segment array of `buildHTMLEmail` (lines 69-82). -/
def htmlParts (params : SendEmailParams) : List String :=
  ["From: me",
   "To: " ++ String.intercalate ", " params.«to»,
   match params.cc with
   | some cc => "Cc: " ++ String.intercalate ", " cc
   | none => "",
   match params.bcc with
   | some bcc => "Bcc: " ++ String.intercalate ", " bcc
   | none => "",
   "Subject: " ++ encodeHeader params.subject,
   if jsTruthyStr params.inReplyTo then "In-Reply-To: " ++ params.inReplyTo.getD "" else "",
   if jsTruthyStr params.inReplyTo then "References: " ++ params.inReplyTo.getD "" else "",
   "MIME-Version: 1.0",
   "Content-Type: text/html; charset=UTF-8",
   "Content-Transfer-Encoding: 7bit",
   "",
   htmlOrBody params]

/-- `EmailBuilder.buildHTMLEmail`. -/
def buildHTMLEmail (params : SendEmailParams) : Except String String :=
  match validateRecipients params with
  | .error e => .error e
  | .ok _ => .ok (String.intercalate "\r\n" ((htmlParts params).filter (fun s => !(s = ""))))

/-- The boundary token of `buildMultipartEmail` (line 98):
`----=_NextPart_` followed by `Math.random().toString(36).substring(2)`; the
random suffix is a parameter of the model. -/
def mkBoundary (sfx : String) : String := "----=_NextPart_" ++ sfx

/-- The segment array of `buildMultipartEmail` (lines 100-124). -/
def multipartParts (boundary : String) (params : SendEmailParams) : List String :=
  ["From: me",
   "To: " ++ String.intercalate ", " params.«to»,
   match params.cc with
   | some cc => "Cc: " ++ String.intercalate ", " cc
   | none => "",
   match params.bcc with
   | some bcc => "Bcc: " ++ String.intercalate ", " bcc
   | none => "",
   "Subject: " ++ encodeHeader params.subject,
   if jsTruthyStr params.inReplyTo then "In-Reply-To: " ++ params.inReplyTo.getD "" else "",
   if jsTruthyStr params.inReplyTo then "References: " ++ params.inReplyTo.getD "" else "",
   "MIME-Version: 1.0",
   "Content-Type: multipart/alternative; boundary=\"" ++ boundary ++ "\"",
   "",
   "--" ++ boundary,
   "Content-Type: text/plain; charset=UTF-8",
   "Content-Transfer-Encoding: 7bit",
   "",
   params.body,
   "",
   "--" ++ boundary,
   "Content-Type: text/html; charset=UTF-8",
   "Content-Transfer-Encoding: 7bit",
   "",
   htmlOrBody params,
   "",
   "--" ++ boundary ++ "--"]

/-- The segments of the multipart document: the part array after
`.filter(Boolean)`. -/
def multipartSegs (boundary : String) (params : SendEmailParams) : List String :=
  (multipartParts boundary params).filter (fun s => !(s = ""))

/-- `EmailBuilder.buildMultipartEmail`; the boundary suffix drawn from
`Math.random()` is passed in. -/
def buildMultipartEmail (sfx : String) (params : SendEmailParams) : Except String String :=
  match validateRecipients params with
  | .error e => .error e
  | .ok _ => .ok (String.intercalate "\r\n" (multipartSegs (mkBoundary sfx) params))

/-- `EmailBuilder.buildEmailWithAttachments` (lines 134-181): validate
recipients, reject a missing or empty attachments list, reject the first
attachment path for which `fs.existsSync` is false, otherwise hand the
parameters to Nodemailer.  The file system is modelled by the predicate
`fsExists`, and Nodemailer's message generation by the abstract `render`
function (external library code, out of scope). -/
def buildEmailWithAttachments (fsExists : String → Bool)
    (render : SendEmailParams → String) (params : SendEmailParams) : Except String String :=
  match validateRecipients params with
  | .error e => .error e
  | .ok _ =>
    match params.attachments with
    | none => .error "No attachments provided"
    | some paths =>
      if paths.length = 0 then .error "No attachments provided"
      else
        match paths.find? (fun p => !fsExists p) with
        | some p => .error ("File does not exist: " ++ p)
        | none => .ok (render params)

/-- The four assembly strategies of `buildEmail`. -/
inductive BuildMode where
  | attachment
  | multipart
  | html
  | plain
deriving DecidableEq, Repr

/-- The decision chain of `EmailBuilder.buildEmail` (lines 189-209):
attachments present and non-empty → ATTACHMENT; else `htmlBody` truthy and
`mimeType || 'text/plain'` not plain → MULTIPART; else mime html → HTML;
else PLAIN.  `params.attachments && params.attachments.length > 0` is the
truthiness test modelled by `hasNonEmptyAttachments`. -/
def hasNonEmptyAttachments (params : SendEmailParams) : Bool :=
  match params.attachments with
  | some l => decide (0 < l.length)
  | none => false

/-- The decision chain itself. -/
def buildMode (params : SendEmailParams) : BuildMode :=
  if hasNonEmptyAttachments params then .attachment
  else if jsTruthyStr params.htmlBody ∧ params.mimeType.getD .textPlain ≠ .textPlain then .multipart
  else if params.mimeType.getD .textPlain = .textHtml then .html
  else .plain

/-- `EmailBuilder.buildEmail`: dispatch on the decision chain. -/
def buildEmail (fsExists : String → Bool) (render : SendEmailParams → String)
    (sfx : String) (params : SendEmailParams) : Except String String :=
  match buildMode params with
  | .attachment => buildEmailWithAttachments fsExists render params
  | .multipart => buildMultipartEmail sfx params
  | .html => buildHTMLEmail params
  | .plain => buildPlainTextEmail params

/-! ## Validation lemmas -/

lemma lit_append_ne_empty (s : String) (h : s.data ≠ []) (t : String) : (s ++ t = "") = False := by
  simp only [eq_iff_iff, iff_false]
  intro hc
  have hd := congrArg String.data hc
  rw [String.data_append] at hd
  exact h (List.append_eq_nil.mp hd).1

lemma lit_append_append_ne_empty (s : String) (h : s.data ≠ []) (t u : String) :
    (s ++ t ++ u = "") = False := by
  simp only [eq_iff_iff, iff_false]
  intro hc
  have hd := congrArg String.data hc
  rw [String.data_append, String.data_append] at hd
  exact h (List.append_eq_nil.mp (List.append_eq_nil.mp hd).1).1

lemma validateEmailArray_ok_iff (l : List String) :
    validateEmailArray l = .ok () ↔ ∀ x ∈ l, validateEmail x = true := by
  induction l with
  | nil => simp [validateEmailArray]
  | cons a rest ih =>
    by_cases ha : validateEmail a = true
    · simp [validateEmailArray, ha, ih]
    · simp [validateEmailArray, ha]

lemma validateRecipients_ok_parts (params : SendEmailParams)
    (h : validateRecipients params = .ok ()) :
    validateEmailArray params.«to» = .ok () ∧
    (∀ cc, params.cc = some cc → validateEmailArray cc = .ok ()) ∧
    (∀ bcc, params.bcc = some bcc → validateEmailArray bcc = .ok ()) := by
  unfold validateRecipients at h
  cases h1 : validateEmailArray params.«to» with
  | error e => rw [h1] at h; cases h
  | ok v =>
    cases v
    rw [h1] at h
    dsimp only at h
    cases hcc : params.cc with
    | some cc =>
      rw [hcc] at h
      dsimp only at h
      cases h2 : validateEmailArray cc with
      | error e => rw [h2] at h; cases h
      | ok w =>
        cases w
        rw [h2] at h
        dsimp only at h
        cases hbcc : params.bcc with
        | some bcc =>
          rw [hbcc] at h
          dsimp only at h
          refine ⟨rfl, ?_, ?_⟩
          · intro c hc
            cases hc
            exact h2
          · intro b hb
            cases hb
            exact h
        | none =>
          refine ⟨rfl, ?_, ?_⟩
          · intro c hc
            cases hc
            exact h2
          · intro b hb
            cases hb
    | none =>
      rw [hcc] at h
      dsimp only at h
      cases hbcc : params.bcc with
      | some bcc =>
        rw [hbcc] at h
        dsimp only at h
        refine ⟨rfl, ?_, ?_⟩
        · intro c hc
          cases hc
        · intro b hb
          cases hb
          exact h
      | none =>
        refine ⟨rfl, ?_, ?_⟩
        · intro c hc
          cases hc
        · intro b hb
          cases hb

lemma validateRecipients_error_of_invalid (params : SendEmailParams) (x : String)
    (hmem : x ∈ params.«to» ∨ (∃ cc, params.cc = some cc ∧ x ∈ cc) ∨
      (∃ bcc, params.bcc = some bcc ∧ x ∈ bcc))
    (hx : validateEmail x = false) :
    ∃ e, validateRecipients params = .error e := by
  cases hres : validateRecipients params with
  | error e => exact ⟨e, rfl⟩
  | ok v =>
    exfalso
    cases v
    obtain ⟨hto, hcc, hbcc⟩ := validateRecipients_ok_parts params hres
    rcases hmem with hm | ⟨cc, hc, hm⟩ | ⟨bcc, hb, hm⟩
    · have := (validateEmailArray_ok_iff _).mp hto x hm
      rw [hx] at this
      cases this
    · have := (validateEmailArray_ok_iff _).mp (hcc cc hc) x hm
      rw [hx] at this
      cases this
    · have := (validateEmailArray_ok_iff _).mp (hbcc bcc hb) x hm
      rw [hx] at this
      cases this

/-- C5 (amended): every one of the four build functions fails with the same
validation error, before any document is produced, whenever some address in
to/cc/bcc fails the address-syntax check.  (The empty recipient list is NOT
rejected by the builders — see the counterexample — non-emptiness is only
enforced upstream by the tool schema.) -/
theorem build_fails_closed_on_invalid_address (params : SendEmailParams)
    (fsE : String → Bool) (render : SendEmailParams → String) (sfx x : String)
    (hmem : x ∈ params.«to» ∨ (∃ cc, params.cc = some cc ∧ x ∈ cc) ∨
      (∃ bcc, params.bcc = some bcc ∧ x ∈ bcc))
    (hx : validateEmail x = false) :
    ∃ e, buildPlainTextEmail params = .error e ∧ buildHTMLEmail params = .error e ∧
      buildMultipartEmail sfx params = .error e ∧
      buildEmailWithAttachments fsE render params = .error e := by
  obtain ⟨e, he⟩ := validateRecipients_error_of_invalid params x hmem hx
  exact ⟨e, by simp [buildPlainTextEmail, he], by simp [buildHTMLEmail, he],
    by simp [buildMultipartEmail, he], by simp [buildEmailWithAttachments, he]⟩

/-- Witness for C5 (amended) at a concrete input: the malformed address
`bad` in the `to` list makes all four builders fail. -/
theorem build_fails_closed_on_invalid_address_witness :
    ("bad" ∈ (["bad"] : List String) ∨
      (∃ cc, (none : Option (List String)) = some cc ∧ "bad" ∈ cc) ∨
      (∃ bcc, (none : Option (List String)) = some bcc ∧ "bad" ∈ bcc)) ∧
    validateEmail "bad" = false ∧
    (∃ e, buildPlainTextEmail ⟨["bad"], "s", "b", none, none, none, none, none, none⟩ = .error e ∧
      buildHTMLEmail ⟨["bad"], "s", "b", none, none, none, none, none, none⟩ = .error e ∧
      buildMultipartEmail "z" ⟨["bad"], "s", "b", none, none, none, none, none, none⟩ = .error e ∧
      buildEmailWithAttachments (fun _ => true) (fun _ => "")
        ⟨["bad"], "s", "b", none, none, none, none, none, none⟩ = .error e) :=
  ⟨Or.inl (by decide), by decide,
    build_fails_closed_on_invalid_address ⟨["bad"], "s", "b", none, none, none, none, none, none⟩
      (fun _ => true) (fun _ => "") "z" "bad" (Or.inl (by decide)) (by decide)⟩

/-- C5 counterexample: with an empty `to` list the plain-text build does NOT
fail — `validateEmailArray([])` passes vacuously and a full document is
produced (with an empty `To:` header line). -/
theorem build_accepts_empty_to_counterexample :
    buildPlainTextEmail ⟨[], "s", "b", none, none, none, none, none, none⟩ =
      .ok "From: me\r\nTo: \r\nSubject: s\r\nMIME-Version: 1.0\r\nContent-Type: text/plain; charset=UTF-8\r\nContent-Transfer-Encoding: 7bit\r\nb" := rfl

set_option maxRecDepth 4096 in
/-- C6 (code bug): the document produced by `buildPlainTextEmail` is the
header lines joined by CRLF followed *immediately* by the body: the `''`
separator element is removed by `.filter(Boolean)`, so no blank line
(`\r\n\r\n`) terminates the header block, although the function is documented
as producing an RFC822-compliant message. -/
theorem plainText_document_lacks_blank_line :
    buildPlainTextEmail ⟨["a@b.c"], "hi", "hello", none, none, none, none, none, none⟩ =
      .ok "From: me\r\nTo: a@b.c\r\nSubject: hi\r\nMIME-Version: 1.0\r\nContent-Type: text/plain; charset=UTF-8\r\nContent-Transfer-Encoding: 7bit\r\nhello" ∧
    ¬ ("\r\n\r\n".data <:+:
      ("From: me\r\nTo: a@b.c\r\nSubject: hi\r\nMIME-Version: 1.0\r\nContent-Type: text/plain; charset=UTF-8\r\nContent-Transfer-Encoding: 7bit\r\nhello" : String).data) :=
  ⟨rfl, by decide⟩

/-- C9: the attachment build fails (no document) when the attachments list is
missing or empty, and when any listed path does not exist; when the
recipients validate, the error names the first missing path. -/
theorem attachments_build_fails_on_missing_file (fsE : String → Bool)
    (render : SendEmailParams → String) (params : SendEmailParams) :
    ((params.attachments = none ∨ params.attachments = some []) →
      ∃ e, buildEmailWithAttachments fsE render params = .error e) ∧
    (∀ l x, params.attachments = some l → x ∈ l → fsE x = false →
      ∃ e, buildEmailWithAttachments fsE render params = .error e) ∧
    (validateRecipients params = .ok () →
      ∀ l p, params.attachments = some l → l.find? (fun q => !fsE q) = some p →
        buildEmailWithAttachments fsE render params = .error ("File does not exist: " ++ p) ∧
        p ∈ l ∧ fsE p = false) := by
  refine ⟨?_, ?_, ?_⟩
  · intro h
    cases hv : validateRecipients params with
    | error e => exact ⟨e, by simp [buildEmailWithAttachments, hv]⟩
    | ok v =>
      cases v
      rcases h with h | h
      · exact ⟨"No attachments provided", by simp [buildEmailWithAttachments, hv, h]⟩
      · exact ⟨"No attachments provided", by simp [buildEmailWithAttachments, hv, h]⟩
  · intro l x hl hx hfs
    cases hv : validateRecipients params with
    | error e => exact ⟨e, by simp [buildEmailWithAttachments, hv]⟩
    | ok v =>
      cases v
      have hfind : (l.find? (fun q => !fsE q)).isSome := by
        rw [List.find?_isSome]
        exact ⟨x, hx, by simp [hfs]⟩
      obtain ⟨p, hp⟩ := Option.isSome_iff_exists.mp hfind
      refine ⟨"File does not exist: " ++ p, ?_⟩
      have hlen : ¬ l.length = 0 := by
        intro h0
        rw [List.length_eq_zero] at h0
        subst h0
        cases hx
      simp [buildEmailWithAttachments, hv, hl, hlen, hp]
  · intro hv l p hl hp
    have hmem : p ∈ l := List.mem_of_find?_eq_some hp
    have hfs : fsE p = false := by
      have := List.find?_some hp
      simpa using this
    have hlen : ¬ l.length = 0 := by
      intro h0
      rw [List.length_eq_zero] at h0
      subst h0
      cases hmem
    exact ⟨by simp [buildEmailWithAttachments, hv, hl, hlen, hp], hmem, hfs⟩

/-- Witness for C9 at a concrete input: one attachment `f.txt` on a file
system where nothing exists. -/
theorem attachments_build_fails_on_missing_file_witness :
    validateRecipients ⟨["a@b.c"], "s", "b", none, none, none, none, none, some ["f.txt"]⟩ = .ok () ∧
    (some ["f.txt"] : Option (List String)) = some ["f.txt"] ∧
    (["f.txt"] : List String).find? (fun q => !(fun _ => false) q) = some "f.txt" ∧
    (buildEmailWithAttachments (fun _ => false) (fun _ => "")
        ⟨["a@b.c"], "s", "b", none, none, none, none, none, some ["f.txt"]⟩ =
      .error ("File does not exist: " ++ "f.txt") ∧
      "f.txt" ∈ (["f.txt"] : List String) ∧ (fun _ => false) "f.txt" = false) :=
  ⟨rfl, rfl, rfl,
    (attachments_build_fails_on_missing_file (fun _ => false) (fun _ => "")
      ⟨["a@b.c"], "s", "b", none, none, none, none, none, some ["f.txt"]⟩).2.2
      rfl ["f.txt"] "f.txt" rfl rfl⟩

/-- C4 counterexample: `htmlBody` present but equal to `""` is falsy in JS,
so with `mimeType = 'text/html'` (content mode not plain) and no attachments
the decision chain selects HTML mode, not MULTIPART as the claim's
"htmlBody is present" reading requires. -/
theorem buildMode_empty_htmlBody_counterexample :
    buildMode ⟨["a@b.c"], "s", "b", some "", some .textHtml, none, none, none, none⟩ =
      .html ∧
    buildMode ⟨["a@b.c"], "s", "b", some "", some .textHtml, none, none, none, none⟩ ≠
      .multipart := by
  exact ⟨rfl, by decide⟩

/-- C4 (amended): the decision order of `buildEmail`, with "htmlBody present"
sharpened to JS truthiness (present and non-empty): attachments present and
non-empty win over everything; else a truthy htmlBody with a content mode
other than plain gives MULTIPART; else content mode html gives HTML; else
PLAIN — and in MULTIPART mode the document's segments contain both the
text/plain and the text/html part headers. -/
theorem buildEmail_mode_selection (params : SendEmailParams) (fsE : String → Bool)
    (render : SendEmailParams → String) (sfx : String) :
    (hasNonEmptyAttachments params = true →
      buildMode params = .attachment ∧
      buildEmail fsE render sfx params = buildEmailWithAttachments fsE render params) ∧
    (hasNonEmptyAttachments params = false →
      jsTruthyStr params.htmlBody = true → params.mimeType.getD .textPlain ≠ .textPlain →
      buildMode params = .multipart ∧
      buildEmail fsE render sfx params = buildMultipartEmail sfx params) ∧
    (hasNonEmptyAttachments params = false →
      ¬ (jsTruthyStr params.htmlBody = true ∧ params.mimeType.getD .textPlain ≠ .textPlain) →
      params.mimeType.getD .textPlain = .textHtml →
      buildMode params = .html ∧
      buildEmail fsE render sfx params = buildHTMLEmail params) ∧
    (hasNonEmptyAttachments params = false →
      ¬ (jsTruthyStr params.htmlBody = true ∧ params.mimeType.getD .textPlain ≠ .textPlain) →
      params.mimeType.getD .textPlain ≠ .textHtml →
      buildMode params = .plain ∧
      buildEmail fsE render sfx params = buildPlainTextEmail params) ∧
    (hasNonEmptyAttachments params = false →
      jsTruthyStr params.htmlBody = true → params.mimeType = some .multipartAlternative →
      buildMode params = .multipart ∧
      "Content-Type: text/plain; charset=UTF-8" ∈ multipartSegs (mkBoundary sfx) params ∧
      "Content-Type: text/html; charset=UTF-8" ∈ multipartSegs (mkBoundary sfx) params) := by
  refine ⟨?_, ?_, ?_, ?_, ?_⟩
  · intro ha
    have hm : buildMode params = .attachment := by
      unfold buildMode
      rw [if_pos ha]
    exact ⟨hm, by unfold buildEmail; rw [hm]⟩
  · intro ha hh hm
    have hmode : buildMode params = .multipart := by
      unfold buildMode
      rw [if_neg (by simp [ha]), if_pos ⟨hh, hm⟩]
    exact ⟨hmode, by unfold buildEmail; rw [hmode]⟩
  · intro ha hnm hh
    have hmode : buildMode params = .html := by
      unfold buildMode
      rw [if_neg (by simp [ha]), if_neg hnm, if_pos hh]
    exact ⟨hmode, by unfold buildEmail; rw [hmode]⟩
  · intro ha hnm hh
    have hmode : buildMode params = .plain := by
      unfold buildMode
      rw [if_neg (by simp [ha]), if_neg hnm, if_neg hh]
    exact ⟨hmode, by unfold buildEmail; rw [hmode]⟩
  · intro ha hh hm
    have hmode : buildMode params = .multipart := by
      unfold buildMode
      rw [if_neg (by simp [ha]), if_pos ⟨hh, by rw [hm]; decide⟩]
    refine ⟨hmode, ?_, ?_⟩
    · unfold multipartSegs multipartParts
      refine List.mem_filter.mpr ⟨?_, by decide⟩
      simp
    · unfold multipartSegs multipartParts
      refine List.mem_filter.mpr ⟨?_, by decide⟩
      simp

/-- Witness for C4 (amended) at concrete inputs exercising the multipart
branch and the example of the claim. -/
theorem buildEmail_mode_selection_witness :
    (hasNonEmptyAttachments
        ⟨["a@b.c"], "s", "b", some "<p>x</p>", some .multipartAlternative, none, none, none, none⟩ = false ∧
      jsTruthyStr (some "<p>x</p>") = true ∧
      (some MimeType.multipartAlternative : Option MimeType) = some .multipartAlternative) ∧
    (buildMode ⟨["a@b.c"], "s", "b", some "<p>x</p>", some .multipartAlternative, none, none, none, none⟩ =
        .multipart ∧
      "Content-Type: text/plain; charset=UTF-8" ∈ multipartSegs (mkBoundary "z")
        ⟨["a@b.c"], "s", "b", some "<p>x</p>", some .multipartAlternative, none, none, none, none⟩ ∧
      "Content-Type: text/html; charset=UTF-8" ∈ multipartSegs (mkBoundary "z")
        ⟨["a@b.c"], "s", "b", some "<p>x</p>", some .multipartAlternative, none, none, none, none⟩) :=
  ⟨⟨rfl, rfl, rfl⟩,
    (buildEmail_mode_selection
        ⟨["a@b.c"], "s", "b", some "<p>x</p>", some .multipartAlternative, none, none, none, none⟩
        (fun _ => true) (fun _ => "") "z").2.2.2.2 rfl rfl rfl⟩

/-! ## Multipart document structure (C7) -/

/-- The header block of the multipart document (the first ten entries of the
part array: address and subject headers, the top-level content type, and the
separator that `.filter(Boolean)` will drop), after filtering. -/
def multipartHeaderSegs (boundary : String) (params : SendEmailParams) : List String :=
  (["From: me",
    "To: " ++ String.intercalate ", " params.«to»,
    match params.cc with
    | some cc => "Cc: " ++ String.intercalate ", " cc
    | none => "",
    match params.bcc with
    | some bcc => "Bcc: " ++ String.intercalate ", " bcc
    | none => "",
    "Subject: " ++ encodeHeader params.subject,
    if jsTruthyStr params.inReplyTo then "In-Reply-To: " ++ params.inReplyTo.getD "" else "",
    if jsTruthyStr params.inReplyTo then "References: " ++ params.inReplyTo.getD "" else "",
    "MIME-Version: 1.0",
    "Content-Type: multipart/alternative; boundary=\"" ++ boundary ++ "\"",
    ""] : List String).filter (fun s => !(s = ""))

lemma multipartSegs_decomp (b : String) (params : SendEmailParams) :
    multipartSegs b params =
      multipartHeaderSegs b params
        ++ ["--" ++ b, "Content-Type: text/plain; charset=UTF-8",
            "Content-Transfer-Encoding: 7bit"]
        ++ (if params.body = "" then [] else [params.body])
        ++ ["--" ++ b, "Content-Type: text/html; charset=UTF-8",
            "Content-Transfer-Encoding: 7bit"]
        ++ (if htmlOrBody params = "" then [] else [htmlOrBody params])
        ++ ["--" ++ b ++ "--"] := by
  unfold multipartSegs multipartHeaderSegs
  rw [show multipartParts b params =
    (["From: me",
      "To: " ++ String.intercalate ", " params.«to»,
      match params.cc with
      | some cc => "Cc: " ++ String.intercalate ", " cc
      | none => "",
      match params.bcc with
      | some bcc => "Bcc: " ++ String.intercalate ", " bcc
      | none => "",
      "Subject: " ++ encodeHeader params.subject,
      if jsTruthyStr params.inReplyTo then "In-Reply-To: " ++ params.inReplyTo.getD "" else "",
      if jsTruthyStr params.inReplyTo then "References: " ++ params.inReplyTo.getD "" else "",
      "MIME-Version: 1.0",
      "Content-Type: multipart/alternative; boundary=\"" ++ b ++ "\"",
      ""] : List String)
    ++ (["--" ++ b,
      "Content-Type: text/plain; charset=UTF-8",
      "Content-Transfer-Encoding: 7bit",
      "",
      params.body,
      "",
      "--" ++ b,
      "Content-Type: text/html; charset=UTF-8",
      "Content-Transfer-Encoding: 7bit",
      "",
      htmlOrBody params,
      "",
      "--" ++ b ++ "--"] : List String) from rfl]
  rw [List.filter_append]
  have hbody : List.filter (fun s => !(s = ""))
      (["--" ++ b,
        "Content-Type: text/plain; charset=UTF-8",
        "Content-Transfer-Encoding: 7bit",
        "",
        params.body,
        "",
        "--" ++ b,
        "Content-Type: text/html; charset=UTF-8",
        "Content-Transfer-Encoding: 7bit",
        "",
        htmlOrBody params,
        "",
        "--" ++ b ++ "--"] : List String) =
      ["--" ++ b, "Content-Type: text/plain; charset=UTF-8",
          "Content-Transfer-Encoding: 7bit"]
        ++ (if params.body = "" then [] else [params.body])
        ++ ["--" ++ b, "Content-Type: text/html; charset=UTF-8",
            "Content-Transfer-Encoding: 7bit"]
        ++ (if htmlOrBody params = "" then [] else [htmlOrBody params])
        ++ ["--" ++ b ++ "--"] := by
    by_cases hb : params.body = "" <;> by_cases hh : htmlOrBody params = "" <;>
      simp [hb, hh, lit_append_ne_empty "--" (by decide),
        lit_append_append_ne_empty "--" (by decide)]
  rw [hbody]
  simp [List.append_assoc]

lemma infix_of_append_left_infix (p q l : List Char) (h : (p ++ q) <:+: l) : p <:+: l := by
  obtain ⟨s, t, hst⟩ := h
  exact ⟨s, q ++ t, by rw [← hst]; simp [List.append_assoc]⟩

/-- C7 (amended): for every valid input the multipart document is the CRLF
join of: the header segments, then the text/plain part (boundary delimiter
line, its Content-Type and Content-Transfer-Encoding sub-headers, the plain
body), then the text/html part, then the closing `--boundary--` delimiter —
exactly two parts in this fixed order (`.filter(Boolean)` drops the blank
separator lines and an empty body line); and provided neither body text
contains the fixed token stem `----=_NextPart_`, the generated boundary does
not appear verbatim inside either body, whatever the random suffix. -/
theorem multipart_two_parts_structure (params : SendEmailParams) (sfx : String)
    (hv : validateRecipients params = .ok ()) :
    buildMultipartEmail sfx params =
      .ok (String.intercalate "\r\n" (multipartSegs (mkBoundary sfx) params)) ∧
    multipartSegs (mkBoundary sfx) params =
      multipartHeaderSegs (mkBoundary sfx) params
        ++ ["--" ++ mkBoundary sfx, "Content-Type: text/plain; charset=UTF-8",
            "Content-Transfer-Encoding: 7bit"]
        ++ (if params.body = "" then [] else [params.body])
        ++ ["--" ++ mkBoundary sfx, "Content-Type: text/html; charset=UTF-8",
            "Content-Transfer-Encoding: 7bit"]
        ++ (if htmlOrBody params = "" then [] else [htmlOrBody params])
        ++ ["--" ++ mkBoundary sfx ++ "--"] ∧
    (¬ ("----=_NextPart_".data <:+: params.body.data) →
      ¬ ((mkBoundary sfx).data <:+: params.body.data)) ∧
    (¬ ("----=_NextPart_".data <:+: (htmlOrBody params).data) →
      ¬ ((mkBoundary sfx).data <:+: (htmlOrBody params).data)) := by
  refine ⟨?_, multipartSegs_decomp (mkBoundary sfx) params, ?_, ?_⟩
  · unfold buildMultipartEmail
    rw [hv]
  · intro hstem hcol
    apply hstem
    apply infix_of_append_left_infix "----=_NextPart_".data sfx.data
    rw [← String.data_append]
    exact hcol
  · intro hstem hcol
    apply hstem
    apply infix_of_append_left_infix "----=_NextPart_".data sfx.data
    rw [← String.data_append]
    exact hcol

/-- Witness for C7 (amended) at a concrete input. -/
theorem multipart_two_parts_structure_witness :
    validateRecipients ⟨["a@b.c"], "s", "hello", some "<p>h</p>", none, none, none, none, none⟩ = .ok () ∧
    (buildMultipartEmail "z" ⟨["a@b.c"], "s", "hello", some "<p>h</p>", none, none, none, none, none⟩ =
      .ok (String.intercalate "\r\n" (multipartSegs (mkBoundary "z")
        ⟨["a@b.c"], "s", "hello", some "<p>h</p>", none, none, none, none, none⟩)) ∧
    multipartSegs (mkBoundary "z") ⟨["a@b.c"], "s", "hello", some "<p>h</p>", none, none, none, none, none⟩ =
      multipartHeaderSegs (mkBoundary "z") ⟨["a@b.c"], "s", "hello", some "<p>h</p>", none, none, none, none, none⟩
        ++ ["--" ++ mkBoundary "z", "Content-Type: text/plain; charset=UTF-8",
            "Content-Transfer-Encoding: 7bit"]
        ++ (if ("hello" : String) = "" then [] else ["hello"])
        ++ ["--" ++ mkBoundary "z", "Content-Type: text/html; charset=UTF-8",
            "Content-Transfer-Encoding: 7bit"]
        ++ (if htmlOrBody ⟨["a@b.c"], "s", "hello", some "<p>h</p>", none, none, none, none, none⟩ = ""
            then [] else [htmlOrBody ⟨["a@b.c"], "s", "hello", some "<p>h</p>", none, none, none, none, none⟩])
        ++ ["--" ++ mkBoundary "z" ++ "--"] ∧
    (¬ ("----=_NextPart_".data <:+: ("hello" : String).data) →
      ¬ ((mkBoundary "z").data <:+: ("hello" : String).data)) ∧
    (¬ ("----=_NextPart_".data <:+:
        (htmlOrBody ⟨["a@b.c"], "s", "hello", some "<p>h</p>", none, none, none, none, none⟩).data) →
      ¬ ((mkBoundary "z").data <:+:
        (htmlOrBody ⟨["a@b.c"], "s", "hello", some "<p>h</p>", none, none, none, none, none⟩).data))) :=
  ⟨rfl, multipart_two_parts_structure
    ⟨["a@b.c"], "s", "hello", some "<p>h</p>", none, none, none, none, none⟩ "z" rfl⟩

set_option maxRecDepth 8192 in
/-- C7 counterexample: nothing prevents the boundary token from occurring
verbatim inside a body text — with random suffix `0` and a plain body that
contains `----=_NextPart_0`, the body segment of the produced document
contains the boundary. -/
theorem multipart_boundary_in_body_counterexample :
    ((mkBoundary "0").data <:+: ("X----=_NextPart_0Y" : String).data) ∧
    "X----=_NextPart_0Y" ∈ multipartSegs (mkBoundary "0")
      ⟨["a@b.c"], "s", "X----=_NextPart_0Y", some "h", none, none, none, none, none⟩ ∧
    buildMultipartEmail "0" ⟨["a@b.c"], "s", "X----=_NextPart_0Y", some "h", none, none, none, none, none⟩ =
      .ok (String.intercalate "\r\n" (multipartSegs (mkBoundary "0")
        ⟨["a@b.c"], "s", "X----=_NextPart_0Y", some "h", none, none, none, none, none⟩)) := by
  refine ⟨by decide, by decide, rfl⟩

/-! ## The word-encoding round trip (C8)

The decoding side below is the inverse scheme named by the property
("base64-decode the payload, read it as UTF-8"): it is not repository code
but the specification of what an RFC 2047 consumer does with the produced
`=?UTF-8?B?...?=` word. -/

/-- Value of one base64 digit character (inverse of `b64Char`); the padding
character `=` has no value. -/
def b64CharVal (c : Char) : Option Nat :=
  if 'A' ≤ c ∧ c ≤ 'Z' then some (c.toNat - 65)
  else if 'a' ≤ c ∧ c ≤ 'z' then some (c.toNat - 97 + 26)
  else if '0' ≤ c ∧ c ≤ '9' then some (c.toNat - 48 + 52)
  else if c = '+' then some 62
  else if c = '/' then some 63
  else none

/-- Base64 decoding: four digits to three bytes, with `=` padding allowed
only in the final quartet. -/
def b64Decode : List Char → Option (List Nat)
  | [] => some []
  | c1 :: c2 :: c3 :: c4 :: rest =>
    match b64CharVal c1, b64CharVal c2 with
    | some w1, some w2 =>
      if c3 = '=' then
        if c4 = '=' ∧ rest = [] then some [w1 * 4 + w2 / 16] else none
      else
        match b64CharVal c3 with
        | some w3 =>
          if c4 = '=' then
            if rest = [] then some [w1 * 4 + w2 / 16, w2 % 16 * 16 + w3 / 4] else none
          else
            match b64CharVal c4 with
            | some w4 =>
              match b64Decode rest with
              | some bs =>
                some ((w1 * 4 + w2 / 16) :: (w2 % 16 * 16 + w3 / 4) :: (w3 % 4 * 64 + w4) :: bs)
              | none => none
            | none => none
        | none => none
    | _, _ => none
  | _ => none

/-- Take the first byte off a byte sequence. -/
def uncons : List Nat → Option (Nat × List Nat)
  | [] => none
  | b :: r => some (b, r)

/-- UTF-8 decoding of a byte sequence into scalar values, with fuel (one unit
per decoded character; a character consumes at least one byte, so the byte
count is enough fuel). -/
def utf8DecodeFuel : Nat → List Nat → Option (List Char)
  | _, [] => some []
  | 0, _ :: _ => none
  | fuel + 1, b :: rest =>
    if b < 0x80 then (utf8DecodeFuel fuel rest).map (fun cs => Char.ofNat b :: cs)
    else if b < 0xC0 then none
    else if b < 0xE0 then
      (uncons rest).bind (fun p =>
        (utf8DecodeFuel fuel p.2).map (fun cs =>
          Char.ofNat ((b - 0xC0) * 0x40 + (p.1 - 0x80)) :: cs))
    else if b < 0xF0 then
      (uncons rest).bind (fun p => (uncons p.2).bind (fun q =>
        (utf8DecodeFuel fuel q.2).map (fun cs =>
          Char.ofNat ((b - 0xE0) * 0x1000 + (p.1 - 0x80) * 0x40 + (q.1 - 0x80)) :: cs)))
    else
      (uncons rest).bind (fun p => (uncons p.2).bind (fun q => (uncons q.2).bind (fun t =>
        (utf8DecodeFuel fuel t.2).map (fun cs =>
          Char.ofNat ((b - 0xF0) * 0x40000 + (p.1 - 0x80) * 0x1000
            + (q.1 - 0x80) * 0x40 + (t.1 - 0x80)) :: cs))))

/-- UTF-8 decoding of a byte sequence. -/
def utf8Decode (l : List Nat) : Option (List Char) :=
  utf8DecodeFuel l.length l

/-- The decoder for an RFC 2047 encoded word with UTF-8 charset and base64
encoding: strip the `=?UTF-8?B?` tag and the `?=` tail, base64-decode the
payload, read the bytes as UTF-8. -/
def decodeWord (w : String) : Option String :=
  let l := w.data
  if l.take 10 = ("=?UTF-8?B?" : String).data ∧ l.reverse.take 2 = ['=', '?'] then
    match b64Decode ((l.drop 10).dropLast.dropLast) with
    | some bytes =>
      match utf8Decode bytes with
      | some cs => some (String.mk cs)
      | none => none
    | none => none
  else none

example : decodeWord "=?UTF-8?B?aMOp?=" = some "hé" := by decide
example : decodeWord (encodeHeader "héllo wörld") = some "héllo wörld" := by decide

lemma char_toNat_lt (c : Char) : c.toNat < 1114112 := by
  have h := c.valid
  show c.val.toNat < 1114112
  rcases h with h | ⟨h1, h2⟩ <;> omega

lemma b64CharVal_b64Char : ∀ n, n < 64 → b64CharVal (b64Char n) = some n := by decide

lemma b64Char_ne_pad : ∀ n, n < 64 → ¬(b64Char n = '=') := by decide

lemma b64Char_ascii : ∀ n, n < 64 → (b64Char n).toNat ≤ 127 := by decide

theorem b64Decode_b64Encode : ∀ (l : List Nat), (∀ b ∈ l, b < 256) →
    b64Decode (b64Encode l) = some l
  | [], _ => rfl
  | [a], h => by
    have ha : a < 256 := h a (by simp)
    have h1 := b64CharVal_b64Char (a / 4) (by omega)
    have h2 := b64CharVal_b64Char (a % 4 * 16) (by omega)
    simp only [b64Encode, b64Decode, h1, h2]
    rw [if_pos trivial, if_pos ⟨trivial, trivial⟩]
    have e1 : a / 4 * 4 + a % 4 * 16 / 16 = a := by omega
    rw [e1]
  | [a, b], h => by
    have ha : a < 256 := h a (by simp)
    have hb : b < 256 := h b (by simp)
    have h1 := b64CharVal_b64Char (a / 4) (by omega)
    have h2 := b64CharVal_b64Char (a % 4 * 16 + b / 16) (by omega)
    have h3 := b64CharVal_b64Char (b % 16 * 4) (by omega)
    simp only [b64Encode, b64Decode, h1, h2]
    rw [if_neg (b64Char_ne_pad _ (by omega))]
    simp only [h3]
    rw [if_pos trivial, if_pos trivial]
    have e1 : a / 4 * 4 + (a % 4 * 16 + b / 16) / 16 = a := by omega
    have e2 : (a % 4 * 16 + b / 16) % 16 * 16 + b % 16 * 4 / 4 = b := by omega
    rw [e1, e2]
  | a :: b :: c :: rest, h => by
    have ha : a < 256 := h a (by simp)
    have hb : b < 256 := h b (by simp)
    have hc : c < 256 := h c (by simp)
    have h1 := b64CharVal_b64Char (a / 4) (by omega)
    have h2 := b64CharVal_b64Char (a % 4 * 16 + b / 16) (by omega)
    have h3 := b64CharVal_b64Char (b % 16 * 4 + c / 64) (by omega)
    have h4 := b64CharVal_b64Char (c % 64) (by omega)
    have hrec := b64Decode_b64Encode rest (fun x hx => h x (by simp [hx]))
    simp only [b64Encode, b64Decode, h1, h2]
    rw [if_neg (b64Char_ne_pad _ (by omega))]
    simp only [h3]
    rw [if_neg (b64Char_ne_pad _ (by omega))]
    simp only [h4, hrec]
    have e1 : a / 4 * 4 + (a % 4 * 16 + b / 16) / 16 = a := by omega
    have e2 : (a % 4 * 16 + b / 16) % 16 * 16 + (b % 16 * 4 + c / 64) / 4 = b := by omega
    have e3 : (b % 16 * 4 + c / 64) % 4 * 64 + c % 64 = c := by omega
    rw [e1, e2, e3]

lemma utf8EncodeChar_lt (n : Nat) (hn : n < 1114112) : ∀ b ∈ utf8EncodeChar n, b < 256 := by
  intro b hb
  unfold utf8EncodeChar at hb
  split_ifs at hb with h1 h2 h3 <;>
    simp only [List.mem_cons, List.not_mem_nil, or_false] at hb
  · omega
  · rcases hb with rfl | rfl <;> omega
  · rcases hb with rfl | rfl | rfl <;> omega
  · rcases hb with rfl | rfl | rfl | rfl <;> omega

lemma utf8Encode_lt (s : String) : ∀ b ∈ utf8Encode s, b < 256 := by
  intro b hb
  unfold utf8Encode at hb
  rw [List.mem_flatMap] at hb
  obtain ⟨c, -, hb⟩ := hb
  exact utf8EncodeChar_lt c.toNat (char_toNat_lt c) b hb

lemma b64Encode_ascii : ∀ (l : List Nat), (∀ b ∈ l, b < 256) → ∀ ch ∈ b64Encode l, ch.toNat ≤ 127
  | [], _ => by simp [b64Encode]
  | [a], h => by
    have ha : a < 256 := h a (by simp)
    intro ch hch
    simp only [b64Encode, List.mem_cons, List.not_mem_nil, or_false] at hch
    rcases hch with rfl | rfl | rfl | rfl
    · exact b64Char_ascii _ (by omega)
    · exact b64Char_ascii _ (by omega)
    · decide
    · decide
  | [a, b], h => by
    have ha : a < 256 := h a (by simp)
    have hb : b < 256 := h b (by simp)
    intro ch hch
    simp only [b64Encode, List.mem_cons, List.not_mem_nil, or_false] at hch
    rcases hch with rfl | rfl | rfl | rfl
    · exact b64Char_ascii _ (by omega)
    · exact b64Char_ascii _ (by omega)
    · exact b64Char_ascii _ (by omega)
    · decide
  | a :: b :: c :: rest, h => by
    have ha : a < 256 := h a (by simp)
    have hb : b < 256 := h b (by simp)
    have hc : c < 256 := h c (by simp)
    intro ch hch
    simp only [b64Encode, List.mem_cons] at hch
    rcases hch with rfl | rfl | rfl | rfl | hch
    · exact b64Char_ascii _ (by omega)
    · exact b64Char_ascii _ (by omega)
    · exact b64Char_ascii _ (by omega)
    · exact b64Char_ascii _ (by omega)
    · exact b64Encode_ascii rest (fun x hx => h x (by simp [hx])) ch hch

lemma utf8DecodeFuel_encodeChar (f : Nat) (c : Char) (rest : List Nat) :
    utf8DecodeFuel (f + 1) (utf8EncodeChar c.toNat ++ rest) =
      (utf8DecodeFuel f rest).map (fun cs => c :: cs) := by
  have hval := char_toNat_lt c
  unfold utf8EncodeChar
  by_cases h1 : c.toNat < 0x80
  · rw [if_pos h1, List.singleton_append]
    simp only [utf8DecodeFuel]
    rw [if_pos h1, Char.ofNat_toNat]
  · by_cases h2 : c.toNat < 0x800
    · rw [if_neg h1, if_pos h2]
      simp only [List.append_eq, List.cons_append, List.nil_append, utf8DecodeFuel]
      rw [if_neg (by omega), if_neg (by omega), if_pos (by omega)]
      simp only [List.append_eq, List.cons_append, List.nil_append, uncons]
      dsimp only [Option.bind]
      have e : (0xC0 + c.toNat / 0x40 - 0xC0) * 0x40 + (0x80 + c.toNat % 0x40 - 0x80)
          = c.toNat := by omega
      rw [e, Char.ofNat_toNat]
    · by_cases h3 : c.toNat < 0x10000
      · rw [if_neg h1, if_neg h2, if_pos h3]
        simp only [List.append_eq, List.cons_append, List.nil_append, utf8DecodeFuel]
        rw [if_neg (by omega), if_neg (by omega), if_neg (by omega), if_pos (by omega)]
        simp only [List.append_eq, List.cons_append, List.nil_append, uncons]
        dsimp only [Option.bind]
        have e : (0xE0 + c.toNat / 0x1000 - 0xE0) * 0x1000
            + (0x80 + c.toNat / 0x40 % 0x40 - 0x80) * 0x40
            + (0x80 + c.toNat % 0x40 - 0x80) = c.toNat := by omega
        rw [e, Char.ofNat_toNat]
      · rw [if_neg h1, if_neg h2, if_neg h3]
        simp only [List.append_eq, List.cons_append, List.nil_append, utf8DecodeFuel]
        rw [if_neg (by omega), if_neg (by omega), if_neg (by omega), if_neg (by omega)]
        simp only [List.append_eq, List.cons_append, List.nil_append, uncons]
        dsimp only [Option.bind]
        have e : (0xF0 + c.toNat / 0x40000 - 0xF0) * 0x40000
            + (0x80 + c.toNat / 0x1000 % 0x40 - 0x80) * 0x1000
            + (0x80 + c.toNat / 0x40 % 0x40 - 0x80) * 0x40
            + (0x80 + c.toNat % 0x40 - 0x80) = c.toNat := by omega
        rw [e, Char.ofNat_toNat]

lemma utf8DecodeFuel_encode_list : ∀ (cs : List Char) (fuel : Nat), cs.length ≤ fuel →
    utf8DecodeFuel fuel (cs.flatMap (fun c => utf8EncodeChar c.toNat)) = some cs
  | [], fuel, _ => by cases fuel <;> rfl
  | c :: cs, fuel, h => by
    obtain ⟨f, rfl⟩ : ∃ f, fuel = f + 1 := ⟨fuel - 1, by simp at h; omega⟩
    rw [show (c :: cs).flatMap (fun c => utf8EncodeChar c.toNat)
        = utf8EncodeChar c.toNat ++ cs.flatMap (fun c => utf8EncodeChar c.toNat) from rfl,
      utf8DecodeFuel_encodeChar, utf8DecodeFuel_encode_list cs f (by simp at h; omega)]
    rfl

lemma utf8EncodeChar_length_pos (n : Nat) : 1 ≤ (utf8EncodeChar n).length := by
  unfold utf8EncodeChar
  split_ifs <;> simp

lemma utf8Decode_utf8Encode (s : String) : utf8Decode (utf8Encode s) = some s.data := by
  unfold utf8Decode utf8Encode
  apply utf8DecodeFuel_encode_list
  induction s.data with
  | nil => simp
  | cons c cs ih =>
    rw [show (c :: cs).flatMap (fun c => utf8EncodeChar c.toNat)
        = utf8EncodeChar c.toNat ++ cs.flatMap (fun c => utf8EncodeChar c.toNat) from rfl]
    rw [List.length_append, List.length_cons]
    have := utf8EncodeChar_length_pos c.toNat
    omega

/-- C8: a header value containing a non-ASCII character is encoded by
`encodeHeader` into an ASCII-only RFC 2047 word (`=?UTF-8?B?` + base64 of the
UTF-8 bytes + `?=`) whose decoding — base64-decode the payload, read the
bytes as UTF-8 — yields the original string; an ASCII-only value is returned
unchanged. -/
theorem encodeHeader_word_roundtrip :
    (∀ s : String, hasNonAscii s = true →
      (encodeHeader s).data.all (fun c => c.toNat ≤ 127) = true ∧
      decodeWord (encodeHeader s) = some s) ∧
    (∀ s : String, hasNonAscii s = false → encodeHeader s = s) := by
  constructor
  · intro s hs
    have hdata : (encodeHeader s).data
        = "=?UTF-8?B?".data ++ b64Encode (utf8Encode s) ++ ['?', '='] := by
      unfold encodeHeader
      rw [if_pos hs, String.data_append, String.data_append]
    constructor
    · rw [hdata]
      have hP : ∀ ch ∈ ("=?UTF-8?B?".data : List Char), ch.toNat ≤ 127 := by decide
      have hT : ∀ ch ∈ (['?', '='] : List Char), ch.toNat ≤ 127 := by decide
      rw [List.all_eq_true]
      intro ch hch
      simp only [List.mem_append] at hch
      simp only [decide_eq_true_eq]
      rcases hch with (h | h) | h
      · exact hP ch h
      · exact b64Encode_ascii _ (utf8Encode_lt s) ch h
      · exact hT ch h
    · unfold decodeWord
      dsimp only
      rw [hdata]
      have htake : (("=?UTF-8?B?".data ++ b64Encode (utf8Encode s)) ++ ['?', '=']).take 10
          = "=?UTF-8?B?".data := by
        rw [List.append_assoc]
        exact List.take_left' rfl
      have hrev : ((("=?UTF-8?B?".data ++ b64Encode (utf8Encode s)) ++ ['?', '=']).reverse).take 2
          = ['=', '?'] := by
        rw [List.reverse_append]
        rfl
      rw [if_pos ⟨htake, hrev⟩]
      have hdrop : (("=?UTF-8?B?".data ++ b64Encode (utf8Encode s)) ++ ['?', '=']).drop 10
          = b64Encode (utf8Encode s) ++ ['?', '='] := by
        rw [List.append_assoc]
        exact List.drop_left' rfl
      rw [hdrop]
      have hdl : ((b64Encode (utf8Encode s) ++ (['?', '='] : List Char)).dropLast).dropLast
          = b64Encode (utf8Encode s) := by
        rw [show (b64Encode (utf8Encode s) ++ (['?', '='] : List Char))
            = (b64Encode (utf8Encode s) ++ ['?']) ++ ['=']
          from (List.append_assoc (b64Encode (utf8Encode s)) ['?'] ['=']).symm]
        rw [List.dropLast_concat, List.dropLast_concat]
      rw [hdl, b64Decode_b64Encode _ (utf8Encode_lt s)]
      dsimp only
      rw [utf8Decode_utf8Encode]
  · intro s hs
    unfold encodeHeader
    rw [if_neg (by simp [hs])]

/-- Witness for C8 at concrete strings: `hé` (non-ASCII) round-trips through
the encoded word, `hi` (ASCII) passes through unchanged. -/
theorem encodeHeader_word_roundtrip_witness :
    (hasNonAscii "hé" = true ∧
      ((encodeHeader "hé").data.all (fun c => c.toNat ≤ 127) = true ∧
        decodeWord (encodeHeader "hé") = some "hé")) ∧
    (hasNonAscii "hi" = false ∧ encodeHeader "hi" = "hi") :=
  ⟨⟨by decide, encodeHeader_word_roundtrip.1 "hé" (by decide)⟩,
   ⟨by decide, encodeHeader_word_roundtrip.2 "hi" (by decide)⟩⟩
